import Mathlib

/-!
Shallow embedding of the STM32F429 touch-calculator core
(PROJECT-05-STM32F429_TOUCH_CALCULATOR/User/main.c): the calculator
evaluation engine, the static button layout with hit-testing, and the
polling touch-dispatch / render-gate loop.

Modelling conventions: C doubles are modelled by exact rationals; the
NUL-terminated input buffer by a list of characters; the int8_t
held-button index (with -1 meaning none) by Option Nat; unsigned screen
coordinates by Nat. External side effects (display drawing, touch
sampling) are irrelevant to the logical state and are dropped; the touch
sample consumed each loop tick is an explicit input.
-/

namespace TouchCalc

/-- Height in pixels of the readout region at the top of the screen. -/
def DISPLAY_HEIGHT : Nat := 80

/-- Width of the ILI9341 panel in the portrait orientation used by the
program; a fixed constant of the external display driver, consumed by the
button-layout macros. -/
def ILI9341_WIDTH : Nat := 240

/-- Number of keypad columns. -/
def BUTTON_COLUMNS : Nat := 4

/-- Number of keypad rows holding digits and operators. -/
def BUTTON_ROWS : Nat := 4

/-- Pixel gap between adjacent buttons. -/
def BUTTON_SPACING : Nat := 4

/-- Left margin of the keypad. -/
def BUTTON_START_X : Nat := 6

/-- Top coordinate of the keypad. -/
def BUTTON_START_Y : Nat := DISPLAY_HEIGHT + 10

/-- Width of one button, derived from the screen width. -/
def BUTTON_WIDTH : Nat :=
  (ILI9341_WIDTH - (BUTTON_START_X * 2) - (BUTTON_SPACING * (BUTTON_COLUMNS - 1))) / BUTTON_COLUMNS

/-- Height of one button. -/
def BUTTON_HEIGHT : Nat := 55

/-- Capacity of the input buffer: 16 visible characters plus terminator. -/
def INPUT_BUFFER_SIZE : Nat := 17

/-- The four button kinds of the source enum CalculatorButtonType. -/
inductive CalculatorButtonType where
  | CALC_BUTTON_DIGIT
  | CALC_BUTTON_OPERATOR
  | CALC_BUTTON_CLEAR
  | CALC_BUTTON_EQUALS
  deriving DecidableEq

/-- One keypad button: label, rectangle and kind. Every label in the table
is a single character, so the label is modelled as one Char (the handler
only ever consults label[0]). -/
structure CalculatorButton where
  label : Char
  x : Nat
  y : Nat
  w : Nat
  h : Nat
  type : CalculatorButtonType
  deriving DecidableEq

/-- The static button table, in source order. -/
def buttons : List CalculatorButton := [
  ⟨'7', BUTTON_START_X + 0 * (BUTTON_WIDTH + BUTTON_SPACING), BUTTON_START_Y + 0 * (BUTTON_HEIGHT + BUTTON_SPACING), BUTTON_WIDTH, BUTTON_HEIGHT, .CALC_BUTTON_DIGIT⟩,
  ⟨'8', BUTTON_START_X + 1 * (BUTTON_WIDTH + BUTTON_SPACING), BUTTON_START_Y + 0 * (BUTTON_HEIGHT + BUTTON_SPACING), BUTTON_WIDTH, BUTTON_HEIGHT, .CALC_BUTTON_DIGIT⟩,
  ⟨'9', BUTTON_START_X + 2 * (BUTTON_WIDTH + BUTTON_SPACING), BUTTON_START_Y + 0 * (BUTTON_HEIGHT + BUTTON_SPACING), BUTTON_WIDTH, BUTTON_HEIGHT, .CALC_BUTTON_DIGIT⟩,
  ⟨'/', BUTTON_START_X + 3 * (BUTTON_WIDTH + BUTTON_SPACING), BUTTON_START_Y + 0 * (BUTTON_HEIGHT + BUTTON_SPACING), BUTTON_WIDTH, BUTTON_HEIGHT, .CALC_BUTTON_OPERATOR⟩,
  ⟨'4', BUTTON_START_X + 0 * (BUTTON_WIDTH + BUTTON_SPACING), BUTTON_START_Y + 1 * (BUTTON_HEIGHT + BUTTON_SPACING), BUTTON_WIDTH, BUTTON_HEIGHT, .CALC_BUTTON_DIGIT⟩,
  ⟨'5', BUTTON_START_X + 1 * (BUTTON_WIDTH + BUTTON_SPACING), BUTTON_START_Y + 1 * (BUTTON_HEIGHT + BUTTON_SPACING), BUTTON_WIDTH, BUTTON_HEIGHT, .CALC_BUTTON_DIGIT⟩,
  ⟨'6', BUTTON_START_X + 2 * (BUTTON_WIDTH + BUTTON_SPACING), BUTTON_START_Y + 1 * (BUTTON_HEIGHT + BUTTON_SPACING), BUTTON_WIDTH, BUTTON_HEIGHT, .CALC_BUTTON_DIGIT⟩,
  ⟨'*', BUTTON_START_X + 3 * (BUTTON_WIDTH + BUTTON_SPACING), BUTTON_START_Y + 1 * (BUTTON_HEIGHT + BUTTON_SPACING), BUTTON_WIDTH, BUTTON_HEIGHT, .CALC_BUTTON_OPERATOR⟩,
  ⟨'1', BUTTON_START_X + 0 * (BUTTON_WIDTH + BUTTON_SPACING), BUTTON_START_Y + 2 * (BUTTON_HEIGHT + BUTTON_SPACING), BUTTON_WIDTH, BUTTON_HEIGHT, .CALC_BUTTON_DIGIT⟩,
  ⟨'2', BUTTON_START_X + 1 * (BUTTON_WIDTH + BUTTON_SPACING), BUTTON_START_Y + 2 * (BUTTON_HEIGHT + BUTTON_SPACING), BUTTON_WIDTH, BUTTON_HEIGHT, .CALC_BUTTON_DIGIT⟩,
  ⟨'3', BUTTON_START_X + 2 * (BUTTON_WIDTH + BUTTON_SPACING), BUTTON_START_Y + 2 * (BUTTON_HEIGHT + BUTTON_SPACING), BUTTON_WIDTH, BUTTON_HEIGHT, .CALC_BUTTON_DIGIT⟩,
  ⟨'-', BUTTON_START_X + 3 * (BUTTON_WIDTH + BUTTON_SPACING), BUTTON_START_Y + 2 * (BUTTON_HEIGHT + BUTTON_SPACING), BUTTON_WIDTH, BUTTON_HEIGHT, .CALC_BUTTON_OPERATOR⟩,
  ⟨'0', BUTTON_START_X + 0 * (BUTTON_WIDTH + BUTTON_SPACING), BUTTON_START_Y + 3 * (BUTTON_HEIGHT + BUTTON_SPACING), BUTTON_WIDTH, BUTTON_HEIGHT, .CALC_BUTTON_DIGIT⟩,
  ⟨'.', BUTTON_START_X + 1 * (BUTTON_WIDTH + BUTTON_SPACING), BUTTON_START_Y + 3 * (BUTTON_HEIGHT + BUTTON_SPACING), BUTTON_WIDTH, BUTTON_HEIGHT, .CALC_BUTTON_DIGIT⟩,
  ⟨'C', BUTTON_START_X + 2 * (BUTTON_WIDTH + BUTTON_SPACING), BUTTON_START_Y + 3 * (BUTTON_HEIGHT + BUTTON_SPACING), BUTTON_WIDTH, BUTTON_HEIGHT, .CALC_BUTTON_CLEAR⟩,
  ⟨'+', BUTTON_START_X + 3 * (BUTTON_WIDTH + BUTTON_SPACING), BUTTON_START_Y + 3 * (BUTTON_HEIGHT + BUTTON_SPACING), BUTTON_WIDTH, BUTTON_HEIGHT, .CALC_BUTTON_OPERATOR⟩,
  ⟨'=', BUTTON_START_X, BUTTON_START_Y + 4 * (BUTTON_HEIGHT + BUTTON_SPACING), BUTTON_WIDTH * 4 + BUTTON_SPACING * 3, BUTTON_HEIGHT, .CALC_BUTTON_EQUALS⟩]

/-- Engine state: accumulator, pending operator (NUL means none),
whether an operand has been committed, sticky error flag, input buffer. -/
structure CalculatorState where
  accumulator : ℚ
  currentOperator : Char
  hasAccumulator : Bool
  error : Bool
  input : List Char
  deriving DecidableEq

/-- The NUL character: the source stores 0 in currentOperator to mean
that no operator is pending. -/
def nulChar : Char := Char.ofNat 0

/-- The state produced by Calculator_Reset, also the state main starts
from. -/
def initState : CalculatorState :=
  { accumulator := 0, currentOperator := nulChar, hasAccumulator := false,
    error := false, input := [] }

/-- Calculator_Reset: overwrites every field with its initial value,
regardless of the incoming state. -/
def Calculator_Reset (_ : CalculatorState) : CalculatorState := initState

/-- Calculator_InputHasDecimal: whether the buffer contains a dot
(strchr in the source). -/
def Calculator_InputHasDecimal (s : CalculatorState) : Bool :=
  s.input.contains '.'

/-- Calculator_ClearInput: empties the buffer, touching nothing else. -/
def Calculator_ClearInput (s : CalculatorState) : CalculatorState :=
  { s with input := [] }

/-- Calculator_AppendInput: appends one character unless the buffer is at
capacity (len + 1 >= INPUT_BUFFER_SIZE) or the character is a second
decimal point; rejection leaves the state untouched. -/
def Calculator_AppendInput (s : CalculatorState) (value : Char) : CalculatorState :=
  if s.input.length + 1 ≥ INPUT_BUFFER_SIZE then s
  else if value = '.' ∧ Calculator_InputHasDecimal s then s
  else { s with input := s.input ++ [value] }

/-- Whether a character is a decimal digit. -/
def isDigitChar (c : Char) : Bool := '0' ≤ c && c ≤ '9'

/-- Numeric value of a digit character, as a rational. -/
def digitValue (c : Char) : ℚ := ((c.toNat - '0'.toNat : Nat) : ℚ)

/-- Integer-part scan of a numeral: folds leading digits into the
accumulator and returns the unconsumed remainder of the input. -/
def scanIntPart : List Char → ℚ → ℚ × List Char
  | [], acc => (acc, [])
  | c :: rest, acc =>
    if isDigitChar c then scanIntPart rest (10 * acc + digitValue c)
    else (acc, c :: rest)

/-- Fractional-part scan: value of the digits following the decimal
point, stopping at the first non-digit. -/
def scanFracPart : List Char → ℚ
  | [] => 0
  | c :: rest => if isDigitChar c then (digitValue c + scanFracPart rest) / 10 else 0

/-- Unsigned numeral scan: integer digits, then an optional fractional
part introduced by a dot; anything after that is ignored. -/
def scanNumber (s : List Char) : ℚ :=
  let p := scanIntPart s 0
  match p.2 with
  | '.' :: frac => p.1 + scanFracPart frac
  | _ => p.1

/-- Model of the C library atof used by Calculator_ParseInput: optional
sign, then a decimal numeral, silently ignoring trailing garbage. Exact
rational arithmetic stands in for IEEE doubles. -/
def atof (s : List Char) : ℚ :=
  match s with
  | '-' :: rest => -(scanNumber rest)
  | '+' :: rest => scanNumber rest
  | _ => scanNumber s

/-- Calculator_ParseInput: an empty buffer parses as 0, otherwise atof. -/
def Calculator_ParseInput (s : CalculatorState) : ℚ :=
  if s.input = [] then 0 else atof s.input

/-- Calculator_ApplyOperation: one binary operation. Division by zero
sets the error flag and yields 0; an unrecognized operator returns the
second operand unchanged. The C out-parameter for the error flag is
modelled by threading the flag through the result. -/
def Calculator_ApplyOperation (a b : ℚ) (op : Char) (err : Bool) : ℚ × Bool :=
  if op = '+' then (a + b, err)
  else if op = '-' then (a - b, err)
  else if op = '*' then (a * b, err)
  else if op = '/' then
    if b = 0 then (0, true) else (a / b, err)
  else (b, err)

/-- Calculator_HandleOperator: commit the typed value if no accumulator
exists yet; otherwise, if an operator is pending or the buffer is
non-empty, fold the typed value into the accumulator; finally clear the
buffer and record the new operator. -/
def Calculator_HandleOperator (s : CalculatorState) (operatorChar : Char) : CalculatorState :=
  let value := Calculator_ParseInput s
  let s1 :=
    if s.hasAccumulator = false then
      { s with accumulator := value, hasAccumulator := true }
    else if s.currentOperator ≠ nulChar ∨ s.input ≠ [] then
      let r := Calculator_ApplyOperation s.accumulator value s.currentOperator s.error
      { s with accumulator := r.1, error := r.2 }
    else s
  { s1 with input := [], currentOperator := operatorChar }

/-- Calculator_HandleEquals: first-value finalize when no accumulator
exists and the buffer is non-empty; apply the pending operator when both
an accumulator and an operator exist; otherwise a no-op. -/
def Calculator_HandleEquals (s : CalculatorState) : CalculatorState :=
  if s.hasAccumulator = false ∧ s.input ≠ [] then
    { s with accumulator := Calculator_ParseInput s, hasAccumulator := true,
             currentOperator := nulChar, input := [] }
  else if s.hasAccumulator = true ∧ s.currentOperator ≠ nulChar then
    let r := Calculator_ApplyOperation s.accumulator (Calculator_ParseInput s)
               s.currentOperator s.error
    { s with accumulator := r.1, error := r.2, currentOperator := nulChar, input := [] }
  else s

/-- Calculator_HandleButton: every press except Clear is ignored while
the error flag is set; otherwise dispatch on the button kind. -/
def Calculator_HandleButton (s : CalculatorState) (button : CalculatorButton) : CalculatorState :=
  if s.error = true ∧ button.type ≠ CalculatorButtonType.CALC_BUTTON_CLEAR then s
  else
    match button.type with
    | .CALC_BUTTON_DIGIT => Calculator_AppendInput s button.label
    | .CALC_BUTTON_OPERATOR => Calculator_HandleOperator s button.label
    | .CALC_BUTTON_CLEAR => Calculator_Reset s
    | .CALC_BUTTON_EQUALS => Calculator_HandleEquals s

/-- Whether a point lies in a button rectangle, with inclusive bounds on
all four edges, exactly as in Calculator_FindButton. -/
def inButton (b : CalculatorButton) (x y : Nat) : Bool :=
  b.x ≤ x && x ≤ b.x + b.w && b.y ≤ y && y ≤ b.y + b.h

/-- Linear scan behind Calculator_FindButton: first button, in table
order, whose rectangle contains the point; k is the index of the head. -/
def findButtonAux : List CalculatorButton → Nat → Nat → Nat → Option Nat
  | [], _, _, _ => none
  | b :: rest, k, x, y =>
    if inButton b x y then some k else findButtonAux rest (k + 1) x y

/-- Calculator_FindButton: index of the first button containing the
point, or none (-1 in the source). -/
def Calculator_FindButton (x y : Nat) : Option Nat :=
  findButtonAux buttons 0 x y

/-- Digit keypress at the engine interface: Calculator_HandleButton on a
digit-kind button labelled c (the handler never consults geometry). -/
def onDigit (s : CalculatorState) (c : Char) : CalculatorState :=
  Calculator_HandleButton s ⟨c, 0, 0, 0, 0, .CALC_BUTTON_DIGIT⟩

/-- Operator keypress at the engine interface. -/
def onOperator (s : CalculatorState) (c : Char) : CalculatorState :=
  Calculator_HandleButton s ⟨c, 0, 0, 0, 0, .CALC_BUTTON_OPERATOR⟩

/-- Clear keypress at the engine interface. -/
def onClear (s : CalculatorState) : CalculatorState :=
  Calculator_HandleButton s ⟨'C', 0, 0, 0, 0, .CALC_BUTTON_CLEAR⟩

/-- Equals keypress at the engine interface. -/
def onEquals (s : CalculatorState) : CalculatorState :=
  Calculator_HandleButton s ⟨'=', 0, 0, 0, 0, .CALC_BUTTON_EQUALS⟩

/-- One abstract engine operation, for quantifying over input
sequences. -/
inductive CalcOp where
  | digit (c : Char)
  | oper (c : Char)
  | clr
  | eq

/-- Apply one abstract engine operation. -/
def applyOp (s : CalculatorState) : CalcOp → CalculatorState
  | .digit c => onDigit s c
  | .oper c => onOperator s c
  | .clr => onClear s
  | .eq => onEquals s

/-- Run a sequence of abstract engine operations from a state. -/
def runOps (s : CalculatorState) : List CalcOp → CalculatorState
  | [] => s
  | o :: rest => runOps (applyOp s o) rest

/-- Run a sequence of button presses through Calculator_HandleButton. -/
def runButtons (s : CalculatorState) : List CalculatorButton → CalculatorState
  | [] => s
  | b :: rest => runButtons (Calculator_HandleButton s b) rest

/-- Operator characters passed to Calculator_ApplyOperation during one
Calculator_HandleOperator call: exactly when the apply branch is taken,
the pending operator is the argument. -/
def handleOperatorApplyCalls (s : CalculatorState) : List Char :=
  if s.hasAccumulator = false then []
  else if s.currentOperator ≠ nulChar ∨ s.input ≠ [] then [s.currentOperator]
  else []

/-- Operator characters passed to Calculator_ApplyOperation during one
Calculator_HandleEquals call. -/
def handleEqualsApplyCalls (s : CalculatorState) : List Char :=
  if s.hasAccumulator = false ∧ s.input ≠ [] then []
  else if s.hasAccumulator = true ∧ s.currentOperator ≠ nulChar then [s.currentOperator]
  else []

/-- Operator characters passed to Calculator_ApplyOperation during one
Calculator_HandleButton call, mirroring its control flow. -/
def handleButtonApplyCalls (s : CalculatorState) (button : CalculatorButton) : List Char :=
  if s.error = true ∧ button.type ≠ CalculatorButtonType.CALC_BUTTON_CLEAR then []
  else
    match button.type with
    | .CALC_BUTTON_DIGIT => []
    | .CALC_BUTTON_OPERATOR => handleOperatorApplyCalls s
    | .CALC_BUTTON_CLEAR => []
    | .CALC_BUTTON_EQUALS => handleEqualsApplyCalls s

/-- All operator characters passed to Calculator_ApplyOperation along a
run of button presses. -/
def runApplyCalls (s : CalculatorState) : List CalculatorButton → List Char
  | [] => []
  | b :: rest =>
    handleButtonApplyCalls s b ++ runApplyCalls (Calculator_HandleButton s b) rest

/-- Pointer status kept across loop iterations (struct TouchStatus). -/
structure TouchStatus where
  x : Nat
  y : Nat
  pressed : Bool
  deriving DecidableEq

/-- One raw touch reading consumed at the top of a loop tick. -/
structure TouchSample where
  pressed : Bool
  x : Nat
  y : Nat
  deriving DecidableEq

/-- The mutable state owned by the main loop: engine state, held-button
index (lastButton, none for -1), current pointer status, the pointer
status last rendered, and the dirty flag. -/
structure LoopState where
  calcState : CalculatorState
  lastButton : Option Nat
  touchStatus : TouchStatus
  lastRenderedStatus : TouchStatus
  stateDirty : Bool
  deriving DecidableEq

/-- A fallback button for list indexing; every index fed to it by the
loop comes from Calculator_FindButton and is in range. -/
def dummyButton : CalculatorButton := ⟨' ', 0, 0, 0, 0, .CALC_BUTTON_DIGIT⟩

/-- The loop state main enters the while loop with. -/
def initLoopState : LoopState :=
  { calcState := initState, lastButton := none,
    touchStatus := ⟨0, 0, false⟩, lastRenderedStatus := ⟨0, 0, false⟩,
    stateDirty := true }

/-- Touch-dispatch phase of one loop tick (the if/else on the touch
reading): returns the updated loop state and the index of the button
activated this tick, if any. On a press that hits a button different
from the held one, the engine runs and the dirty flag is set; on a press
over no button nothing changes but the pointer status; on release the
held index is dropped (the source resets it only when a button was held,
which stores the same value). -/
def tickDispatch (ls : LoopState) (t : TouchSample) : LoopState × Option Nat :=
  if t.pressed = true then
    let ts : TouchStatus := ⟨t.x, t.y, true⟩
    match Calculator_FindButton t.x t.y with
    | some i =>
      if some i ≠ ls.lastButton then
        ({ calcState := Calculator_HandleButton ls.calcState (buttons.getD i dummyButton),
           lastButton := some i,
           touchStatus := ts,
           lastRenderedStatus := ls.lastRenderedStatus,
           stateDirty := true }, some i)
      else ({ ls with touchStatus := ts }, none)
    | none => ({ ls with touchStatus := ts }, none)
  else
    ({ ls with touchStatus := ⟨0, 0, false⟩, lastButton := none }, none)

/-- Render-gate phase of one loop tick: redraw when dirty or when the
pointer status differs from the last rendered one; a redraw records the
pointer status and clears the dirty flag. Returns whether it redrew. -/
def tickRender (ls : LoopState) : LoopState × Bool :=
  if ls.stateDirty = true ∨ ls.touchStatus.pressed ≠ ls.lastRenderedStatus.pressed ∨
     ls.touchStatus.x ≠ ls.lastRenderedStatus.x ∨ ls.touchStatus.y ≠ ls.lastRenderedStatus.y then
    ({ ls with lastRenderedStatus := ls.touchStatus, stateDirty := false }, true)
  else (ls, false)

/-- One full loop tick: dispatch then render gate. -/
def tick (ls : LoopState) (t : TouchSample) : LoopState × Option Nat :=
  let d := tickDispatch ls t
  ((tickRender d.1).1, d.2)

/-- Run the loop over a list of touch samples, collecting the indices of
all button activations in order. -/
def runTicks (ls : LoopState) : List TouchSample → LoopState × List Nat
  | [] => (ls, [])
  | t :: rest =>
    let d := tick ls t
    let r := runTicks d.1 rest
    (r.1, d.2.toList ++ r.2)

/-! Helper lemmas about the engine operations. -/

/-- Clear always lands in the initial state, whatever the guard sees. -/
lemma onClear_eq_initState (s : CalculatorState) : onClear s = initState := by
  simp [onClear, Calculator_HandleButton, Calculator_Reset]

/-- With the error flag clear, an operator press reaches the handler. -/
lemma onOperator_of_no_error (s : CalculatorState) (c : Char) (h : s.error = false) :
    onOperator s c = Calculator_HandleOperator s c := by
  simp [onOperator, Calculator_HandleButton, h]

/-- With the error flag set, an operator press is a no-op. -/
lemma onOperator_of_error (s : CalculatorState) (c : Char) (h : s.error = true) :
    onOperator s c = s := by
  simp [onOperator, Calculator_HandleButton, h]

/-- The operator handler always leaves the buffer empty. -/
lemma handleOperator_input (s : CalculatorState) (c : Char) :
    (Calculator_HandleOperator s c).input = [] := rfl

/-- The operator handler records its argument as the pending operator. -/
lemma handleOperator_currentOperator (s : CalculatorState) (c : Char) :
    (Calculator_HandleOperator s c).currentOperator = c := rfl

/-- The operator handler always leaves an accumulator committed. -/
lemma handleOperator_hasAccumulator (s : CalculatorState) (c : Char) :
    (Calculator_HandleOperator s c).hasAccumulator = true := by
  unfold Calculator_HandleOperator
  cases hb : s.hasAccumulator
  · simp [hb]
  · simp [hb]
    split <;> simp [hb]

/-- A follow-up operator press with an empty buffer, a committed
accumulator, no error and a pending `+` or `-` keeps the accumulator and
just replaces the operator. -/
lemma operator_then_operator (s1 : CalculatorState) (op2 : Char)
    (hin : s1.input = []) (hacc : s1.hasAccumulator = true) (herr : s1.error = false)
    (hop : s1.currentOperator = '+' ∨ s1.currentOperator = '-') :
    (onOperator s1 op2).accumulator = s1.accumulator ∧
    (onOperator s1 op2).currentOperator = op2 := by
  rw [onOperator_of_no_error s1 op2 herr]
  refine ⟨?_, handleOperator_currentOperator s1 op2⟩
  unfold Calculator_HandleOperator
  have hval : Calculator_ParseInput s1 = 0 := by simp [Calculator_ParseInput, hin]
  rcases hop with h | h <;>
    simp [hacc, hval, h, Calculator_ApplyOperation, hin, nulChar]

/-! Claim theorems for the evaluation engine. -/

/-- C1 (counterexample): from the state with accumulator 5, no pending
operator, empty buffer and no error, pressing `*` and then `+` with
nothing typed in between drives the accumulator to 0 instead of leaving
it at 5: the second press applies the pending `*` to the parsed empty
buffer, i.e. multiplies by zero. -/
theorem c1_operator_override_counterexample :
    (onOperator (⟨5, nulChar, true, false, []⟩ : CalculatorState) '*').accumulator = 5 ∧
    (onOperator (onOperator (⟨5, nulChar, true, false, []⟩ : CalculatorState) '*') '+').accumulator = 0 ∧
    (onOperator (onOperator (⟨5, nulChar, true, false, []⟩ : CalculatorState) '*') '+').currentOperator = '+' := by
  refine ⟨?_, ?_, ?_⟩ <;>
    simp [onOperator, Calculator_HandleButton, Calculator_HandleOperator,
          Calculator_ParseInput, Calculator_ApplyOperation, nulChar]

/-- C1 (amended): immediately repeated operator presses override the
pending operator without altering the accumulator when the first
operator is `+` or `-` and the first press does not raise the error
flag; for `*` the second press multiplies the accumulator by zero, and
for `/` it raises the division-by-zero error. -/
theorem c1_operator_override (s : CalculatorState) (op1 op2 : Char)
    (h1 : op1 = '+' ∨ op1 = '-')
    (hnoerr : (onOperator s op1).error = false) :
    (onOperator (onOperator s op1) op2).accumulator = (onOperator s op1).accumulator ∧
    (onOperator (onOperator s op1) op2).currentOperator = op2 := by
  cases hs : s.error
  · rw [onOperator_of_no_error s op1 hs] at hnoerr ⊢
    exact operator_then_operator _ op2 (handleOperator_input s op1)
      (handleOperator_hasAccumulator s op1) hnoerr
      (by rw [handleOperator_currentOperator]; exact h1)
  · rw [onOperator_of_error s op1 hs] at hnoerr
    rw [hs] at hnoerr
    exact absurd hnoerr (by simp)

/-- Witness for C1 (amended): from the initial state, `+` then `-`
leaves the accumulator where the first press put it and records `-`. -/
theorem c1_operator_override_witness :
    (onOperator (onOperator initState '+') '-').accumulator = (onOperator initState '+').accumulator ∧
    (onOperator (onOperator initState '+') '-').currentOperator = '-' :=
  c1_operator_override initState '+' '-' (Or.inl rfl) (by decide)

/-- C4: while the sticky error flag is set, digit, operator and equals
presses leave the whole state untouched, and clear is the only operation
that changes the state. -/
theorem c4_error_is_noop (s : CalculatorState) (c op : Char) (h : s.error = true) :
    onDigit s c = s ∧ onOperator s op = s ∧ onEquals s = s ∧ onClear s ≠ s := by
  refine ⟨?_, onOperator_of_error s op h, ?_, ?_⟩
  · simp [onDigit, Calculator_HandleButton, h]
  · simp [onEquals, Calculator_HandleButton, h]
  · rw [onClear_eq_initState]
    intro hEq
    rw [← hEq] at h
    exact absurd h (by simp [initState])

/-- Witness for C4 at a concrete error state. -/
theorem c4_error_is_noop_witness :
    onDigit (⟨0, nulChar, true, true, []⟩ : CalculatorState) '2' = ⟨0, nulChar, true, true, []⟩ ∧
    onOperator (⟨0, nulChar, true, true, []⟩ : CalculatorState) '+' = ⟨0, nulChar, true, true, []⟩ ∧
    onEquals (⟨0, nulChar, true, true, []⟩ : CalculatorState) = ⟨0, nulChar, true, true, []⟩ ∧
    onClear (⟨0, nulChar, true, true, []⟩ : CalculatorState) ≠ ⟨0, nulChar, true, true, []⟩ :=
  c4_error_is_noop ⟨0, nulChar, true, true, []⟩ '2' '+' rfl

/-- C5: dividing by zero sets the error flag and yields 0; dividing by a
nonzero value yields the quotient and leaves the error flag alone. In
the rational model there is no distinction between positive and negative
zero, matching the C comparison `b == 0.0`, which both zeros satisfy. -/
theorem c5_apply_division (a b : ℚ) (err : Bool) :
    (b = 0 → Calculator_ApplyOperation a b '/' err = (0, true)) ∧
    (b ≠ 0 → Calculator_ApplyOperation a b '/' err = (a / b, err)) := by
  constructor
  · intro hb
    simp [Calculator_ApplyOperation, hb]
  · intro hb
    simp [Calculator_ApplyOperation, hb]

/-- Witness for C5 at concrete operands. -/
theorem c5_apply_division_witness :
    Calculator_ApplyOperation 1 0 '/' false = (0, true) ∧
    Calculator_ApplyOperation 1 2 '/' false = (1 / 2, false) :=
  ⟨(c5_apply_division 1 0 false).1 rfl,
   (c5_apply_division 1 2 false).2 (by norm_num)⟩

/-- C6: clear yields exactly the initial state from every state,
reachable or not: accumulator 0, nothing committed, no pending operator,
no error, empty buffer. -/
theorem c6_clear_yields_initial (s : CalculatorState) :
    onClear s = initState ∧ initState.accumulator = 0 ∧
    initState.hasAccumulator = false ∧ initState.currentOperator = nulChar ∧
    initState.error = false ∧ initState.input = [] :=
  ⟨onClear_eq_initState s, rfl, rfl, rfl, rfl, rfl⟩

/-- C7: appending a character is rejected exactly when the buffer
already holds 16 characters or the character is a second decimal point;
rejection returns the state unchanged, and otherwise the character lands
at the end of the buffer with the rest of the state untouched. -/
theorem c7_append_characterisation (s : CalculatorState) (c : Char) :
    (Calculator_AppendInput s c = s ↔
      16 ≤ s.input.length ∨ (c = '.' ∧ '.' ∈ s.input)) ∧
    (¬(16 ≤ s.input.length ∨ (c = '.' ∧ '.' ∈ s.input)) →
      Calculator_AppendInput s c = { s with input := s.input ++ [c] }) := by
  by_cases h1 : 16 ≤ s.input.length
  · have hcap : s.input.length + 1 ≥ INPUT_BUFFER_SIZE := by
      simp only [INPUT_BUFFER_SIZE]
      omega
    have hr : Calculator_AppendInput s c = s := by
      unfold Calculator_AppendInput
      rw [if_pos hcap]
    exact ⟨by simp [hr, h1], fun hn => absurd (Or.inl h1) hn⟩
  · have hcapF : ¬(s.input.length + 1 ≥ INPUT_BUFFER_SIZE) := by
      simp only [INPUT_BUFFER_SIZE]
      omega
    by_cases h2 : c = '.' ∧ '.' ∈ s.input
    · have hd : Calculator_InputHasDecimal s = true := by
        unfold Calculator_InputHasDecimal
        exact List.elem_iff.mpr h2.2
      have hr : Calculator_AppendInput s c = s := by
        unfold Calculator_AppendInput
        rw [if_neg hcapF, if_pos ⟨h2.1, hd⟩]
      exact ⟨by rw [hr]; simp [h2.1, h2.2], fun hn => absurd (Or.inr h2) hn⟩
    · have hcondF : ¬(c = '.' ∧ Calculator_InputHasDecimal s = true) := by
        intro hcc
        refine h2 ⟨hcc.1, ?_⟩
        have hthis := hcc.2
        unfold Calculator_InputHasDecimal at hthis
        exact List.elem_iff.mp hthis
      have happ : Calculator_AppendInput s c = { s with input := s.input ++ [c] } := by
        unfold Calculator_AppendInput
        rw [if_neg hcapF, if_neg hcondF]
      refine ⟨⟨?_, ?_⟩, fun _ => happ⟩
      · intro hEq
        exfalso
        rw [happ] at hEq
        have hin : s.input ++ [c] = s.input := congrArg CalculatorState.input hEq
        have hlen := congrArg List.length hin
        simp at hlen
      · intro h
        rcases h with h | h
        · exact absurd h h1
        · exact absurd h h2

/-- Witness for C7: a second decimal point is rejected, a digit is
appended. -/
theorem c7_append_characterisation_witness :
    Calculator_AppendInput (⟨0, nulChar, false, false, ['1', '.']⟩ : CalculatorState) '.' =
      ⟨0, nulChar, false, false, ['1', '.']⟩ ∧
    Calculator_AppendInput (⟨0, nulChar, false, false, ['1']⟩ : CalculatorState) '5' =
      ⟨0, nulChar, false, false, ['1', '5']⟩ :=
  ⟨(c7_append_characterisation ⟨0, nulChar, false, false, ['1', '.']⟩ '.').1.mpr
      (Or.inr ⟨rfl, by decide⟩),
   (c7_append_characterisation ⟨0, nulChar, false, false, ['1']⟩ '5').2 (by decide)⟩

/-! Buffer invariant: at most one decimal point. -/

/-- The at-most-one-decimal-point buffer invariant. -/
def dotInv (s : CalculatorState) : Prop := s.input.count '.' ≤ 1

/-- Appending any character preserves the decimal-point invariant: a
second dot is rejected, and a first dot raises the count to one. -/
lemma dotInv_append (s : CalculatorState) (c : Char) (h : dotInv s) :
    dotInv (Calculator_AppendInput s c) := by
  unfold Calculator_AppendInput
  split
  · exact h
  · split
    · exact h
    · rename_i hcond
      unfold dotInv at h ⊢
      by_cases hc : c = '.'
      · have hnot : Calculator_InputHasDecimal s = false := by
          cases hcd : Calculator_InputHasDecimal s
          · rfl
          · exact absurd ⟨hc, hcd⟩ hcond
        have hmem : ('.' : Char) ∉ s.input := by
          have hx := hnot
          unfold Calculator_InputHasDecimal at hx
          simpa using hx
        have hcount : s.input.count '.' = 0 := List.count_eq_zero.mpr hmem
        subst hc
        simp [List.count_append, hcount]
      · have hone : List.count '.' [c] = 0 :=
          List.count_eq_zero.mpr (by simp [Ne.symm hc])
        simp only [List.count_append, hone]
        omega

/-- The not-taken branch of the equals handler is the identity; the
other branches empty the buffer. -/
lemma handleEquals_input (s : CalculatorState) :
    (Calculator_HandleEquals s).input = [] ∨ Calculator_HandleEquals s = s := by
  unfold Calculator_HandleEquals
  split
  · exact Or.inl rfl
  · split
    · exact Or.inl rfl
    · exact Or.inr rfl

/-- Every button press preserves the decimal-point invariant. -/
lemma dotInv_handleButton (s : CalculatorState) (b : CalculatorButton) (h : dotInv s) :
    dotInv (Calculator_HandleButton s b) := by
  unfold Calculator_HandleButton
  split
  · exact h
  · cases b.type
    · exact dotInv_append s b.label h
    · unfold dotInv
      rw [handleOperator_input]
      simp
    · simp [Calculator_Reset, initState, dotInv]
    · rcases handleEquals_input s with hin | hid
      · unfold dotInv
        rw [hin]
        simp
      · rw [hid]
        exact h

/-- Every abstract engine operation preserves the invariant. -/
lemma dotInv_applyOp (s : CalculatorState) (o : CalcOp) (h : dotInv s) :
    dotInv (applyOp s o) := by
  cases o <;> exact dotInv_handleButton _ _ h

/-- C8: in every state reachable from the initial state by engine
operations, the input buffer holds at most one decimal point. -/
theorem c8_at_most_one_decimal_point (ops : List CalcOp) :
    (runOps initState ops).input.count '.' ≤ 1 := by
  suffices h : ∀ s, dotInv s → dotInv (runOps s ops) by
    exact h initState (by simp [dotInv, initState])
  induction ops with
  | nil => exact fun s hs => hs
  | cons o rest ih => exact fun s hs => ih (applyOp s o) (dotInv_applyOp s o hs)

/-! Reachable operator characters and the Apply default branch. -/

/-- The operator characters a reachable state can carry: the four
keypad operators, or NUL for "none". -/
def allowedOps : List Char := [nulChar, '+', '-', '*', '/']

/-- Every operator-kind button in the table is labelled with one of the
four arithmetic operators. -/
lemma buttons_operator_labels :
    ∀ b ∈ buttons, b.type = CalculatorButtonType.CALC_BUTTON_OPERATOR →
      b.label ∈ allowedOps := by
  decide

/-- Appending never touches the pending operator. -/
lemma appendInput_currentOperator (s : CalculatorState) (c : Char) :
    (Calculator_AppendInput s c).currentOperator = s.currentOperator := by
  unfold Calculator_AppendInput
  split
  · rfl
  · split <;> rfl

/-- After equals, the pending operator is NUL or unchanged. -/
lemma handleEquals_currentOperator (s : CalculatorState) :
    (Calculator_HandleEquals s).currentOperator = nulChar ∨
    (Calculator_HandleEquals s).currentOperator = s.currentOperator := by
  unfold Calculator_HandleEquals
  split
  · exact Or.inl rfl
  · split
    · exact Or.inl rfl
    · exact Or.inr rfl

/-- The operator handler only ever hands the pending operator to
Calculator_ApplyOperation. -/
lemma handleOperatorApplyCalls_subset (s : CalculatorState) (c : Char)
    (hc : c ∈ handleOperatorApplyCalls s) : c = s.currentOperator := by
  unfold handleOperatorApplyCalls at hc
  split at hc
  · simp at hc
  · split at hc
    · simpa using hc
    · simp at hc

/-- The equals handler only ever hands the pending operator to
Calculator_ApplyOperation. -/
lemma handleEqualsApplyCalls_subset (s : CalculatorState) (c : Char)
    (hc : c ∈ handleEqualsApplyCalls s) : c = s.currentOperator := by
  unfold handleEqualsApplyCalls at hc
  split at hc
  · simp at hc
  · split at hc
    · simpa using hc
    · simp at hc

/-- A table button keeps the pending operator inside allowedOps. -/
lemma handleButton_currentOperator_mem (s : CalculatorState) (b : CalculatorButton)
    (hb : b ∈ buttons) (h : s.currentOperator ∈ allowedOps) :
    (Calculator_HandleButton s b).currentOperator ∈ allowedOps := by
  unfold Calculator_HandleButton
  split
  · exact h
  · cases htype : b.type
    · rw [appendInput_currentOperator]
      exact h
    · rw [handleOperator_currentOperator]
      exact buttons_operator_labels b hb htype
    · simp [Calculator_Reset, initState, allowedOps]
    · rcases handleEquals_currentOperator s with hn | hu
      · rw [hn]
        simp [allowedOps]
      · rw [hu]
        exact h

/-- Every operator character a button press passes to
Calculator_ApplyOperation lies in allowedOps. -/
lemma handleButton_applyCalls_mem (s : CalculatorState) (b : CalculatorButton)
    (h : s.currentOperator ∈ allowedOps) :
    ∀ c ∈ handleButtonApplyCalls s b, c ∈ allowedOps := by
  intro c hc
  unfold handleButtonApplyCalls at hc
  split at hc
  · simp at hc
  · split at hc
    · simp at hc
    · rw [handleOperatorApplyCalls_subset s c hc]
      exact h
    · simp at hc
    · rw [handleEqualsApplyCalls_subset s c hc]
      exact h

/-- Along any run of table buttons from a state whose pending operator
is in allowedOps, every operator handed to Calculator_ApplyOperation is
in allowedOps. -/
lemma runApplyCalls_allowed (bs : List CalculatorButton) :
    ∀ s : CalculatorState, (∀ b ∈ bs, b ∈ buttons) →
      s.currentOperator ∈ allowedOps →
      ∀ c ∈ runApplyCalls s bs, c ∈ allowedOps := by
  induction bs with
  | nil =>
    intro s _ _ c hc
    simp [runApplyCalls] at hc
  | cons b rest ih =>
    intro s hbs hs c hc
    simp only [runApplyCalls, List.mem_append] at hc
    have hbmem : b ∈ buttons := hbs b (by simp)
    rcases hc with hc | hc
    · exact handleButton_applyCalls_mem s b hs c hc
    · exact ih (Calculator_HandleButton s b)
        (fun b2 h2 => hbs b2 (by simp [h2]))
        (handleButton_currentOperator_mem s b hbmem hs) c hc

/-- The button sequence 7, =, 5, + as table entries. -/
def c2seq : List CalculatorButton :=
  [buttons.getD 0 dummyButton, buttons.getD 16 dummyButton,
   buttons.getD 5 dummyButton, buttons.getD 15 dummyButton]

/-- C2 (counterexample): the reachable button sequence 7, =, 5, + makes
the engine invoke Calculator_ApplyOperation with the NUL operator, which
is outside the four keypad operators, and on that call the default
branch returns the second operand unchanged. The press of `+` finds a
committed accumulator, no pending operator and a non-empty buffer, so
the apply branch runs with the NUL pending operator. -/
theorem c2_default_branch_counterexample :
    (∀ b ∈ c2seq, b ∈ buttons) ∧
    runApplyCalls initState c2seq = [nulChar] ∧
    nulChar ∉ ['+', '-', '*', '/'] ∧
    Calculator_ApplyOperation 7 5 nulChar false = (5, false) := by
  refine ⟨by decide, by decide, by decide, ?_⟩
  simp [Calculator_ApplyOperation, nulChar]

/-- C2 (amended): along every button sequence drawn from the fixed
table, every operator character handed to Calculator_ApplyOperation lies
in allowedOps, i.e. is one of the four keypad operators or the NUL
no-operator marker; only the NUL case reaches the default branch. -/
theorem c2_apply_operator_range (bs : List CalculatorButton)
    (hbs : ∀ b ∈ bs, b ∈ buttons) :
    ∀ c ∈ runApplyCalls initState bs, c ∈ allowedOps :=
  runApplyCalls_allowed bs initState hbs (by decide)

/-- Witness for C2 (amended) on the concrete sequence 7, =, 5, +: the
NUL operator that this run hands to Calculator_ApplyOperation is in
allowedOps. -/
theorem c2_apply_operator_range_witness : nulChar ∈ allowedOps :=
  c2_apply_operator_range c2seq (by decide) nulChar (by decide)

/-! Geometry of the button table and hit-testing. -/

/-- Two button rectangles are disjoint when they are separated on one
axis (bounds are inclusive, so strict separation is needed). -/
abbrev rectsDisjoint (b1 b2 : CalculatorButton) : Prop :=
  b1.x + b1.w < b2.x ∨ b2.x + b2.w < b1.x ∨ b1.y + b1.h < b2.y ∨ b2.y + b2.h < b1.y

/-- The seventeen table rectangles are pairwise disjoint. -/
lemma buttons_pairwise_disjoint :
    ∀ i j : Fin 17, i ≠ j →
      rectsDisjoint (buttons.getD i dummyButton) (buttons.getD j dummyButton) := by
  decide

/-- A point inside one of two disjoint rectangles is outside the other. -/
lemma not_inButton_of_disjoint (b1 b2 : CalculatorButton) (x y : Nat)
    (hd : rectsDisjoint b1 b2) (h2 : inButton b2 x y = true) :
    inButton b1 x y = false := by
  have h2r : b2.x ≤ x ∧ x ≤ b2.x + b2.w ∧ b2.y ≤ y ∧ y ≤ b2.y + b2.h := by
    simpa [inButton, and_assoc] using h2
  cases hb : inButton b1 x y
  · rfl
  · exfalso
    have h1r : b1.x ≤ x ∧ x ≤ b1.x + b1.w ∧ b1.y ≤ y ∧ y ≤ b1.y + b1.h := by
      simpa [inButton, and_assoc] using hb
    unfold rectsDisjoint at hd
    rcases hd with h | h | h | h <;> omega

/-- The scan returns the position of the hit when every earlier
rectangle misses the point. -/
lemma findButtonAux_eq (x y : Nat) :
    ∀ (l : List CalculatorButton) (k i : Nat), i < l.length →
      (∀ j, j < i → inButton (l.getD j dummyButton) x y = false) →
      inButton (l.getD i dummyButton) x y = true →
      findButtonAux l k x y = some (k + i) := by
  intro l
  induction l with
  | nil =>
    intro k i hi
    simp at hi
  | cons b rest ih =>
    intro k i hi hbefore hit
    cases i with
    | zero =>
      simp only [List.getD_cons_zero] at hit
      unfold findButtonAux
      rw [if_pos hit, Nat.add_zero]
    | succ j =>
      have hb0 : inButton b x y = false := by
        have hx := hbefore 0 (Nat.succ_pos j)
        simpa using hx
      unfold findButtonAux
      rw [if_neg (by simp [hb0])]
      have hrec := ih (k + 1) j (by simpa using hi)
        (fun j2 hj2 => by simpa using hbefore (j2 + 1) (by omega))
        (by simpa using hit)
      rw [hrec]
      congr 1
      omega

/-- A point inside button i lands on button i in the scan: all other
rectangles are disjoint from rectangle i, so no earlier button can
capture the point. -/
lemma findButton_of_inButton (i : Nat) (hi : i < 17) (x y : Nat)
    (h : inButton (buttons.getD i dummyButton) x y = true) :
    Calculator_FindButton x y = some i := by
  have hlen : buttons.length = 17 := rfl
  have hfind := findButtonAux_eq x y buttons 0 i (by rw [hlen]; exact hi)
    (fun j hj => not_inButton_of_disjoint _ _ x y
      (buttons_pairwise_disjoint ⟨j, by omega⟩ ⟨i, hi⟩
        (by simp only [ne_eq, Fin.mk.injEq]; omega))
      h)
    h
  simpa [Calculator_FindButton] using hfind

/-! Behaviour of the loop phases. -/

/-- The render gate never touches the engine state or the held button. -/
lemma tickRender_fields (ls : LoopState) :
    (tickRender ls).1.calcState = ls.calcState ∧
    (tickRender ls).1.lastButton = ls.lastButton := by
  unfold tickRender
  split <;> exact ⟨rfl, rfl⟩

/-- A pressed tick over the already-held button changes only the pointer
status and activates nothing. -/
lemma tickDispatch_same (ls : LoopState) (t : TouchSample) (i : Nat)
    (hp : t.pressed = true) (hf : Calculator_FindButton t.x t.y = some i)
    (hheld : ls.lastButton = some i) :
    tickDispatch ls t = ({ ls with touchStatus := ⟨t.x, t.y, true⟩ }, none) := by
  simp [tickDispatch, hp, hf, hheld]

/-- A pressed tick over no button changes only the pointer status. -/
lemma tickDispatch_nohit (ls : LoopState) (t : TouchSample)
    (hp : t.pressed = true) (hf : Calculator_FindButton t.x t.y = none) :
    tickDispatch ls t = ({ ls with touchStatus := ⟨t.x, t.y, true⟩ }, none) := by
  simp [tickDispatch, hp, hf]

/-- A pressed tick over a button other than the held one activates it:
the engine runs, the dirty flag is set and the button becomes held. -/
lemma tickDispatch_activate (ls : LoopState) (t : TouchSample) (i : Nat)
    (hp : t.pressed = true) (hf : Calculator_FindButton t.x t.y = some i)
    (hnew : some i ≠ ls.lastButton) :
    tickDispatch ls t =
      ({ calcState := Calculator_HandleButton ls.calcState (buttons.getD i dummyButton),
         lastButton := some i, touchStatus := ⟨t.x, t.y, true⟩,
         lastRenderedStatus := ls.lastRenderedStatus, stateDirty := true }, some i) := by
  simp [tickDispatch, hp, hf, hnew]

/-- A released tick drops the held button and resets the pointer
status, leaving everything else (the dirty flag included) unchanged. -/
lemma tickDispatch_release (ls : LoopState) (t : TouchSample) (hp : t.pressed = false) :
    tickDispatch ls t = ({ ls with touchStatus := ⟨0, 0, false⟩, lastButton := none }, none) := by
  simp [tickDispatch, hp]

/-- While a button stays held, a run of pressed ticks each hitting that
button or hitting nothing activates nothing and keeps the button held. -/
lemma runTicks_held (i : Nat) :
    ∀ (samples : List TouchSample) (ls : LoopState), ls.lastButton = some i →
      (∀ t ∈ samples, t.pressed = true ∧
        (Calculator_FindButton t.x t.y = some i ∨ Calculator_FindButton t.x t.y = none)) →
      (runTicks ls samples).2 = [] ∧ (runTicks ls samples).1.lastButton = some i := by
  intro samples
  induction samples with
  | nil => exact fun ls hls _ => ⟨rfl, hls⟩
  | cons t rest ih =>
    intro ls hls hall
    obtain ⟨hp, hf⟩ := hall t (by simp)
    have hd : tickDispatch ls t = ({ ls with touchStatus := ⟨t.x, t.y, true⟩ }, none) := by
      rcases hf with hf | hf
      · exact tickDispatch_same ls t i hp hf hls
      · exact tickDispatch_nohit ls t hp hf
    have h2 : (tick ls t).2 = none := by
      unfold tick
      rw [hd]
    have h1 : (tick ls t).1.lastButton = some i := by
      unfold tick
      rw [hd, (tickRender_fields _).2]
      exact hls
    have hrec := ih (tick ls t).1 h1 (fun t2 ht2 => hall t2 (by simp [ht2]))
    simp only [runTicks]
    rw [h2, hrec.1]
    exact ⟨rfl, hrec.2⟩

/-- From the idle dispatcher, a run of pressed ticks whose first tick
hits button i and whose later ticks hit button i or nothing activates
button i exactly once. -/
lemma pressRun_single_activation (ls : LoopState) (i : Nat) (t0 : TouchSample)
    (rest : List TouchSample)
    (hIdle : ls.lastButton = none) (h0p : t0.pressed = true)
    (hf0 : Calculator_FindButton t0.x t0.y = some i)
    (hrest : ∀ t ∈ rest, t.pressed = true ∧
      (Calculator_FindButton t.x t.y = some i ∨ Calculator_FindButton t.x t.y = none)) :
    (runTicks ls (t0 :: rest)).2 = [i] := by
  have hd := tickDispatch_activate ls t0 i h0p hf0 (by rw [hIdle]; simp)
  have h2 : (tick ls t0).2 = some i := by
    unfold tick
    rw [hd]
  have h1 : (tick ls t0).1.lastButton = some i := by
    unfold tick
    rw [hd, (tickRender_fields _).2]
  have hheld := runTicks_held i rest (tick ls t0).1 h1 hrest
  simp only [runTicks]
  rw [h2, hheld.1]
  rfl

/-! Claim theorems for the touch loop. -/

/-- C3: a run of consecutive loop ticks, each pressed inside the
rectangle of the single button i, starting with no held button,
activates the evaluation engine with button i exactly once, however
many ticks the press spans. -/
theorem c3_one_activation_per_press (ls : LoopState) (i : Nat) (t0 : TouchSample)
    (rest : List TouchSample)
    (hIdle : ls.lastButton = none) (hi : i < 17)
    (h0p : t0.pressed = true)
    (h0in : inButton (buttons.getD i dummyButton) t0.x t0.y = true)
    (hrest : ∀ t ∈ rest, t.pressed = true ∧
      inButton (buttons.getD i dummyButton) t.x t.y = true) :
    (runTicks ls (t0 :: rest)).2 = [i] :=
  pressRun_single_activation ls i t0 rest hIdle h0p
    (findButton_of_inButton i hi t0.x t0.y h0in)
    (fun t ht => ⟨(hrest t ht).1,
      Or.inl (findButton_of_inButton i hi t.x t.y (hrest t ht).2)⟩)

/-- Witness for C3: two ticks pressed inside button 0 activate it once. -/
theorem c3_one_activation_per_press_witness :
    (runTicks initLoopState [⟨true, 10, 100⟩, ⟨true, 11, 101⟩]).2 = [0] :=
  c3_one_activation_per_press initLoopState 0 ⟨true, 10, 100⟩ [⟨true, 11, 101⟩]
    rfl (by decide) rfl (by decide) (by decide)

/-- C10: a pressed tick whose hit-test finds no button leaves the held
index unchanged and activates nothing; consequently a press that starts
on button i and wanders through dead space (hit-test none) and back over
button i activates i exactly once for the whole press. -/
theorem c10_dead_space_press (ls : LoopState) (t : TouchSample)
    (ls2 : LoopState) (i : Nat) (t0 : TouchSample) (rest : List TouchSample)
    (hp : t.pressed = true) (hf : Calculator_FindButton t.x t.y = none)
    (hIdle : ls2.lastButton = none) (h0p : t0.pressed = true)
    (hf0 : Calculator_FindButton t0.x t0.y = some i)
    (hrest : ∀ t2 ∈ rest, t2.pressed = true ∧
      (Calculator_FindButton t2.x t2.y = some i ∨ Calculator_FindButton t2.x t2.y = none)) :
    ((tick ls t).1.lastButton = ls.lastButton ∧ (tick ls t).2 = none) ∧
    (runTicks ls2 (t0 :: rest)).2 = [i] := by
  refine ⟨⟨?_, ?_⟩, pressRun_single_activation ls2 i t0 rest hIdle h0p hf0 hrest⟩
  · unfold tick
    rw [tickDispatch_nohit ls t hp hf, (tickRender_fields _).2]
  · unfold tick
    rw [tickDispatch_nohit ls t hp hf]

/-- Witness for C10: a press over dead space keeps the dispatcher idle,
and a press dragging from button 0 through dead space back to button 0
activates it once. -/
theorem c10_dead_space_press_witness :
    (((tick initLoopState ⟨true, 0, 0⟩).1.lastButton = initLoopState.lastButton ∧
      (tick initLoopState ⟨true, 0, 0⟩).2 = none) ∧
     (runTicks initLoopState [⟨true, 10, 100⟩, ⟨true, 0, 0⟩, ⟨true, 12, 100⟩]).2 = [0]) :=
  c10_dead_space_press initLoopState ⟨true, 0, 0⟩ initLoopState 0 ⟨true, 10, 100⟩
    [⟨true, 0, 0⟩, ⟨true, 12, 100⟩] rfl (by decide) rfl rfl (by decide) (by decide)

/-- C9 (counterexample): a release tick — sample not pressed while a
button is held — does not set the dirty flag: starting from a held
button and a clear dirty flag, the dispatch phase leaves the flag clear,
and so does the whole tick. -/
theorem c9_dirty_on_release_counterexample :
    ((⟨initState, some 0, ⟨10, 100, true⟩, ⟨10, 100, true⟩, false⟩ : LoopState).lastButton).isSome = true ∧
    (⟨false, 0, 0⟩ : TouchSample).pressed = false ∧
    (tickDispatch ⟨initState, some 0, ⟨10, 100, true⟩, ⟨10, 100, true⟩, false⟩ ⟨false, 0, 0⟩).1.stateDirty = false ∧
    (tick ⟨initState, some 0, ⟨10, 100, true⟩, ⟨10, 100, true⟩, false⟩ ⟨false, 0, 0⟩).1.stateDirty = false := by
  decide

/-- C9 (amended): the dirty flag is set by the dispatch phase whenever a
button is newly activated — which covers every engine operation, since
the engine only runs on activation; a release tick leaves the dirty flag
unchanged, and the redraw after a release with the pointer last rendered
as pressed is triggered by the pointer-status comparison of the render
gate rather than by the dirty flag. -/
theorem c9_dirty_flag (ls : LoopState) (t : TouchSample) (i : Nat) :
    (t.pressed = true → Calculator_FindButton t.x t.y = some i →
      some i ≠ ls.lastButton → (tickDispatch ls t).1.stateDirty = true) ∧
    (t.pressed = false → (tickDispatch ls t).1.stateDirty = ls.stateDirty) ∧
    (t.pressed = false → ls.lastRenderedStatus.pressed = true →
      (tickRender (tickDispatch ls t).1).2 = true) := by
  refine ⟨?_, ?_, ?_⟩
  · intro hp hf hnew
    rw [tickDispatch_activate ls t i hp hf hnew]
  · intro hp
    rw [tickDispatch_release ls t hp]
  · intro hp hr
    rw [tickDispatch_release ls t hp]
    simp [tickRender, hr]

/-- Witness for C9 (amended): activation sets the flag; a release from a
held, rendered-as-pressed state keeps the flag clear yet still redraws. -/
theorem c9_dirty_flag_witness :
    (tickDispatch initLoopState ⟨true, 10, 100⟩).1.stateDirty = true ∧
    (tickDispatch ⟨initState, some 0, ⟨10, 100, true⟩, ⟨10, 100, true⟩, false⟩ ⟨false, 0, 0⟩).1.stateDirty =
      (⟨initState, some 0, ⟨10, 100, true⟩, ⟨10, 100, true⟩, false⟩ : LoopState).stateDirty ∧
    (tickRender (tickDispatch ⟨initState, some 0, ⟨10, 100, true⟩, ⟨10, 100, true⟩, false⟩ ⟨false, 0, 0⟩).1).2 = true :=
  ⟨(c9_dirty_flag initLoopState ⟨true, 10, 100⟩ 0).1 rfl (by decide) (by decide),
   (c9_dirty_flag ⟨initState, some 0, ⟨10, 100, true⟩, ⟨10, 100, true⟩, false⟩ ⟨false, 0, 0⟩ 0).2.1 rfl,
   (c9_dirty_flag ⟨initState, some 0, ⟨10, 100, true⟩, ⟨10, 100, true⟩, false⟩ ⟨false, 0, 0⟩ 0).2.2 rfl rfl⟩

end TouchCalc
